import Mathlib

/-!
Shallow embedding of `src/users/forms.py` of the class-manager repository:
the account store (Users, role profiles, department membership rows) and the
form operations (signin, user actions, signup/update for student, teacher and
deptadmin).  Django ORM calls are embedded as pure functions over an explicit
`Store`; `@transaction.atomic` save methods return `Except`: an `.error`
outcome commits nothing (the input store stands for the rolled-back state).
-/

namespace UsersForms

/-- A `User` row.  The field set follows the spec's data model (the `models.py`
file is not part of the provided sources): email, password hash, the four role
flags, `is_accepted` and `is_active`. -/
structure User where
  id : Nat
  email : String
  passwordHash : String
  is_student : Bool
  is_teacher : Bool
  is_deptadmin : Bool
  is_staff : Bool
  is_accepted : Bool
  is_active : Bool
deriving Repr, DecidableEq

/-- A `Student` profile row (1:1 with `User` via `user_id`). -/
structure Student where
  user_id : Nat
  registry_id : String
  first_name : String
  last_name : String
  admission_year : Int
deriving Repr, DecidableEq

/-- A `Teacher` profile row (1:1 with `User`); the rank enum is embedded as a
string, its concrete values are irrelevant here. -/
structure Teacher where
  user_id : Nat
  first_name : String
  last_name : String
  rank : String
deriving Repr, DecidableEq

/-- A `Deptadmin` profile row: holds its department reference directly. -/
structure Deptadmin where
  user_id : Nat
  department : Nat
deriving Repr, DecidableEq

/-- A `DepartmentStudents` membership row. -/
structure DeptStudentsRow where
  dept_id : Nat
  user_id : Nat
deriving Repr, DecidableEq

/-- A `DepartmentTeachers` membership row. -/
structure DeptTeachersRow where
  dept_id : Nat
  user_id : Nat
deriving Repr, DecidableEq

/-- The persistent store the forms read and write. -/
structure Store where
  users : List User
  students : List Student
  teachers : List Teacher
  deptadmins : List Deptadmin
  deptStudents : List DeptStudentsRow
  deptTeachers : List DeptTeachersRow
deriving Repr, DecidableEq

/-- The error taxonomy of the module, one constructor per distinct outcome. -/
inductive FormError where
  | invalidCredentials
  | accountDisabled
  | duplicateRegistryId
  | emailTaken
  | notFound
deriving Repr, DecidableEq

/-- The user-facing message attached to each error, copied from the
`error_messages` dictionaries in `forms.py` (`notFound` surfaces as the ORM's
`DoesNotExist` exception text). -/
def errorMessage : FormError → String
  | .invalidCredentials => "Incorrect email or password."
  | .accountDisabled => "Please wait for your account to be enabled."
  | .duplicateRegistryId => "A student with this registry id already exists."
  | .emailTaken => "This email is used by another user."
  | .notFound => "matching query does not exist."

-- ================================================================
-- ORM primitives
-- ================================================================

/-- `User.objects.filter(email=...)`. -/
def usersByEmail (s : Store) (email : String) : List User :=
  s.users.filter (fun u => u.email = email)

/-- `User.objects.filter(id=...)`. -/
def usersById (s : Store) (uid : Nat) : List User :=
  s.users.filter (fun u => u.id = uid)

/-- `Student.objects.filter(registry_id=...)`. -/
def studentsByRegistryId (s : Store) (rid : String) : List Student :=
  s.students.filter (fun st => st.registry_id = rid)

/-- `Student.objects.filter(user=...)`. -/
def studentsByUser (s : Store) (uid : Nat) : List Student :=
  s.students.filter (fun st => st.user_id = uid)

/-- `Teacher.objects.filter(user=...)`. -/
def teachersByUser (s : Store) (uid : Nat) : List Teacher :=
  s.teachers.filter (fun t => t.user_id = uid)

/-- `Deptadmin.objects.filter(user=...)`. -/
def deptadminsByUser (s : Store) (uid : Nat) : List Deptadmin :=
  s.deptadmins.filter (fun d => d.user_id = uid)

/-- `DepartmentStudents.objects.filter(user_id=...)`. -/
def deptStudentsByUser (s : Store) (uid : Nat) : List DeptStudentsRow :=
  s.deptStudents.filter (fun r => r.user_id = uid)

/-- `DepartmentTeachers.objects.filter(user_id=...)`. -/
def deptTeachersByUser (s : Store) (uid : Nat) : List DeptTeachersRow :=
  s.deptTeachers.filter (fun r => r.user_id = uid)

-- ================================================================
-- Authentication gate (SigninForm)
-- ================================================================

/-- Modelled from the spec: the `django.contrib.auth.authenticate` backend is
an external collaborator; per §4.1 it "looks up User by email, verifies
password hash", returning the user on a match and nothing on a missing email
or a hash mismatch.  The hashing service is the explicit `hashPw` argument. -/
def authenticate (hashPw : String → String) (s : Store)
    (email password : String) : Option User :=
  (usersByEmail s email).head?.bind
    (fun u => if u.passwordHash = hashPw password then some u else none)

/-- `SigninForm.confirm_login_allowed`: rejects a user whose `is_accepted`
flag is false. -/
def confirm_login_allowed (u : User) : Except FormError Unit :=
  if u.is_accepted then .ok () else .error .accountDisabled

/-- `SigninForm.clean`: authenticate, collapsing both lookup failure and hash
mismatch into the single `invalid_login` error, then gate on `is_accepted`.
The form is read-only: the store is returned unchanged on success.  (The
`if email and password` presence guard of the source corresponds to
field-level `required` validation done by the framework before `clean`.) -/
def signinClean (hashPw : String → String) (s : Store)
    (email password : String) : Except FormError (User × Store) :=
  match authenticate hashPw s email password with
  | none => .error .invalidCredentials
  | some u =>
    match confirm_login_allowed u with
    | .error e => .error e
    | .ok _ => .ok (u, s)

-- ================================================================
-- UserActionForm
-- ================================================================

/-- `row.save()` on a fetched object: every stored row the same lookup key
selects is replaced by the written-back object `new`. -/
def updateWhere {α : Type} (hit : α → Bool) (new : α) (l : List α) : List α :=
  l.map (fun x => if hit x then new else x)

/-- `UserActionForm.accept`: `User.objects.get(id=user_id)` (raising
`DoesNotExist`, embedded as `notFound`, on a missing id), then sets
`is_accepted = True` and saves the row. -/
def acceptUser (s : Store) (uid : Nat) : Except FormError Store :=
  match (usersById s uid).head? with
  | none => .error .notFound
  | some u =>
    .ok { s with users := updateWhere (fun v => v.id = uid) { u with is_accepted := true } s.users }

/-- `UserActionForm.activate`: as `accept` but sets `is_active = True`. -/
def activateUser (s : Store) (uid : Nat) : Except FormError Store :=
  match (usersById s uid).head? with
  | none => .error .notFound
  | some u =>
    .ok { s with users := updateWhere (fun v => v.id = uid) { u with is_active := true } s.users }

/-- `UserActionForm.deactivate`: as `accept` but sets `is_active = False`. -/
def deactivateUser (s : Store) (uid : Nat) : Except FormError Store :=
  match (usersById s uid).head? with
  | none => .error .notFound
  | some u =>
    .ok { s with users := updateWhere (fun v => v.id = uid) { u with is_active := false } s.users }

/-- `UserActionForm.delete`: `User.objects.filter(id=user_id).delete()` — the
matched users are removed and, per the referential rules of the data model,
their profile and membership rows cascade; an empty queryset deletes nothing
and raises no error. -/
def deleteUser (s : Store) (uid : Nat) : Store :=
  if s.users.any (fun u => u.id = uid) then
    { users := s.users.filter (fun u => u.id ≠ uid),
      students := s.students.filter (fun st => st.user_id ≠ uid),
      teachers := s.teachers.filter (fun t => t.user_id ≠ uid),
      deptadmins := s.deptadmins.filter (fun d => d.user_id ≠ uid),
      deptStudents := s.deptStudents.filter (fun r => r.user_id ≠ uid),
      deptTeachers := s.deptTeachers.filter (fun r => r.user_id ≠ uid) }
  else s

-- ================================================================
-- Signup forms
-- ================================================================

/-- A fresh primary key for a created user. -/
def freshId (s : Store) : Nat :=
  (s.users.foldl (fun m u => max m u.id) 0) + 1

/-- Modelled from the spec: `UserCreationForm.save(commit=False)` together
with the `User` model defaults of the absent `models.py` — the built user
carries the submitted email and the hashed password; the role flags default
to false, `is_accepted` defaults to false (§3) and `is_active` to true. -/
def newUser (hashPw : String → String) (s : Store)
    (email password : String) : User :=
  { id := freshId s, email := email, passwordHash := hashPw password,
    is_student := false, is_teacher := false, is_deptadmin := false,
    is_staff := false, is_accepted := false, is_active := true }

/-- The submitted fields of `StudentSignupForm` (the password confirmation
and field-format validation are framework collaborators). -/
structure StudentSignupData where
  department : Nat
  email : String
  first_name : String
  last_name : String
  registry_id : String
  admission_year : Int
  password : String
deriving Repr, DecidableEq

/-- `StudentSignupForm.clean`: rejects the submission when any `Student`
already carries the submitted registry id. -/
def studentSignupClean (s : Store) (d : StudentSignupData) :
    Except FormError Unit :=
  if (studentsByRegistryId s d.registry_id).isEmpty then .ok ()
  else .error .duplicateRegistryId

/-- `StudentSignupForm.save` (`@transaction.atomic`): create the `User` with
`is_student = True`, the `Student` profile row with the submitted fields, and
the `DepartmentStudents` membership row; returns the created user. -/
def studentSignupSave (hashPw : String → String) (s : Store)
    (d : StudentSignupData) : User × Store :=
  let u := { newUser hashPw s d.email d.password with is_student := true }
  let st : Student :=
    { user_id := u.id, registry_id := d.registry_id,
      first_name := d.first_name, last_name := d.last_name,
      admission_year := d.admission_year }
  let ds : DeptStudentsRow := { dept_id := d.department, user_id := u.id }
  (u, { s with users := s.users ++ [u], students := s.students ++ [st],
                deptStudents := s.deptStudents ++ [ds] })

/-- The student signup operation: validation then atomic save. -/
def studentSignup (hashPw : String → String) (s : Store)
    (d : StudentSignupData) : Except FormError (User × Store) :=
  match studentSignupClean s d with
  | .error e => .error e
  | .ok _ => .ok (studentSignupSave hashPw s d)

/-- The submitted fields of `TeacherSignupForm`. -/
structure TeacherSignupData where
  department : Nat
  email : String
  first_name : String
  last_name : String
  rank : String
  password : String
deriving Repr, DecidableEq

/-- `TeacherSignupForm.save` (`@transaction.atomic`): create the `User` with
`is_teacher = True`, the `Teacher` profile row, and the `DepartmentTeachers`
membership row; the form has no custom `clean`. -/
def teacherSignupSave (hashPw : String → String) (s : Store)
    (d : TeacherSignupData) : User × Store :=
  let u := { newUser hashPw s d.email d.password with is_teacher := true }
  let t : Teacher :=
    { user_id := u.id, first_name := d.first_name, last_name := d.last_name,
      rank := d.rank }
  let dt : DeptTeachersRow := { dept_id := d.department, user_id := u.id }
  (u, { s with users := s.users ++ [u], teachers := s.teachers ++ [t],
                deptTeachers := s.deptTeachers ++ [dt] })

/-- The submitted fields of `DeptadminSignupForm`. -/
structure DeptadminSignupData where
  department : Nat
  email : String
  password : String
deriving Repr, DecidableEq

/-- `DeptadminSignupForm.save` (`@transaction.atomic`): create the `User`
with `is_deptadmin = True` and `is_staff = True` and the `Deptadmin` row
holding the department reference directly; no membership row is written. -/
def deptadminSignupSave (hashPw : String → String) (s : Store)
    (d : DeptadminSignupData) : User × Store :=
  let u := { newUser hashPw s d.email d.password with
             is_deptadmin := true, is_staff := true }
  let da : Deptadmin := { user_id := u.id, department := d.department }
  (u, { s with users := s.users ++ [u], deptadmins := s.deptadmins ++ [da] })

-- ================================================================
-- Update forms
-- ================================================================

/-- The submitted fields of `StudentUpdateForm`. -/
structure StudentUpdateData where
  user_id : Nat
  department : Nat
  first_name : String
  last_name : String
  registry_id : String
  admission_year : Int
  email : String
deriving Repr, DecidableEq

/-- `StudentUpdateForm.clean`: the submitted email must not belong to a user
other than `user_id` (`exists and not exists[0].id == user_id`), and the
submitted registry id must not belong to a student owned by another user. -/
def studentUpdateClean (s : Store) (d : StudentUpdateData) :
    Except FormError Unit :=
  match (usersByEmail s d.email).head? with
  | some u =>
    if u.id ≠ d.user_id then .error .emailTaken
    else
      match (studentsByRegistryId s d.registry_id).head? with
      | some st =>
        if st.user_id ≠ d.user_id then .error .duplicateRegistryId else .ok ()
      | none => .ok ()
  | none =>
    match (studentsByRegistryId s d.registry_id).head? with
    | some st =>
      if st.user_id ≠ d.user_id then .error .duplicateRegistryId else .ok ()
    | none => .ok ()

/-- `StudentUpdateForm.save` (`@transaction.atomic`): `User.objects.get`,
write the email; `Student.objects.get(user=...)`, write the profile fields;
`DepartmentStudents.objects.get(user_id=...)`, write the department
reference.  Each `get` raises `DoesNotExist` (`notFound`) on a missing row,
and the atomic transaction then commits nothing. -/
def studentUpdateSave (s : Store) (d : StudentUpdateData) :
    Except FormError (User × Store) :=
  match (usersById s d.user_id).head? with
  | none => .error .notFound
  | some u =>
    let u' := { u with email := d.email }
    let s1 := { s with users := updateWhere (fun v => v.id = d.user_id) u' s.users }
    match (studentsByUser s1 d.user_id).head? with
    | none => .error .notFound
    | some st =>
      let st' := { st with first_name := d.first_name, last_name := d.last_name, registry_id := d.registry_id, admission_year := d.admission_year }
      let s2 := { s1 with students := updateWhere (fun t => t.user_id = d.user_id) st' s1.students }
      match (deptStudentsByUser s2 d.user_id).head? with
      | none => .error .notFound
      | some ds =>
        let ds' := { ds with dept_id := d.department }
        .ok (u', { s2 with deptStudents := updateWhere (fun r => r.user_id = d.user_id) ds' s2.deptStudents })

/-- The student update operation: validation then atomic save. -/
def studentUpdate (s : Store) (d : StudentUpdateData) :
    Except FormError (User × Store) :=
  match studentUpdateClean s d with
  | .error e => .error e
  | .ok _ => studentUpdateSave s d

/-- The submitted fields of `TeacherUpdateForm`. -/
structure TeacherUpdateData where
  user_id : Nat
  department : Nat
  first_name : String
  last_name : String
  rank : String
  email : String
deriving Repr, DecidableEq

/-- `TeacherUpdateForm.clean`: only the email-uniqueness check. -/
def teacherUpdateClean (s : Store) (d : TeacherUpdateData) :
    Except FormError Unit :=
  match (usersByEmail s d.email).head? with
  | some u => if u.id ≠ d.user_id then .error .emailTaken else .ok ()
  | none => .ok ()

/-- `TeacherUpdateForm.save` (`@transaction.atomic`): update `User.email`,
the `Teacher` profile fields and the existing `DepartmentTeachers` row. -/
def teacherUpdateSave (s : Store) (d : TeacherUpdateData) :
    Except FormError (User × Store) :=
  match (usersById s d.user_id).head? with
  | none => .error .notFound
  | some u =>
    let u' := { u with email := d.email }
    let s1 := { s with users := updateWhere (fun v => v.id = d.user_id) u' s.users }
    match (teachersByUser s1 d.user_id).head? with
    | none => .error .notFound
    | some t =>
      let t' := { t with first_name := d.first_name, last_name := d.last_name, rank := d.rank }
      let s2 := { s1 with teachers := updateWhere (fun x => x.user_id = d.user_id) t' s1.teachers }
      match (deptTeachersByUser s2 d.user_id).head? with
      | none => .error .notFound
      | some dt =>
        let dt' := { dt with dept_id := d.department }
        .ok (u', { s2 with deptTeachers := updateWhere (fun r => r.user_id = d.user_id) dt' s2.deptTeachers })

/-- The teacher update operation: validation then atomic save. -/
def teacherUpdate (s : Store) (d : TeacherUpdateData) :
    Except FormError (User × Store) :=
  match teacherUpdateClean s d with
  | .error e => .error e
  | .ok _ => teacherUpdateSave s d

/-- The submitted fields of `DeptadminUpdateForm`. -/
structure DeptadminUpdateData where
  user_id : Nat
  department : Nat
  email : String
deriving Repr, DecidableEq

/-- `DeptadminUpdateForm.clean`: only the email-uniqueness check. -/
def deptadminUpdateClean (s : Store) (d : DeptadminUpdateData) :
    Except FormError Unit :=
  match (usersByEmail s d.email).head? with
  | some u => if u.id ≠ d.user_id then .error .emailTaken else .ok ()
  | none => .ok ()

/-- `DeptadminUpdateForm.save` (`@transaction.atomic`): update `User.email`
and the `Deptadmin` row's department reference. -/
def deptadminUpdateSave (s : Store) (d : DeptadminUpdateData) :
    Except FormError (User × Store) :=
  match (usersById s d.user_id).head? with
  | none => .error .notFound
  | some u =>
    let u' := { u with email := d.email }
    let s1 := { s with users := updateWhere (fun v => v.id = d.user_id) u' s.users }
    match (deptadminsByUser s1 d.user_id).head? with
    | none => .error .notFound
    | some da =>
      let da' := { da with department := d.department }
      .ok (u', { s1 with deptadmins := updateWhere (fun x => x.user_id = d.user_id) da' s1.deptadmins })

/-- The deptadmin update operation: validation then atomic save. -/
def deptadminUpdate (s : Store) (d : DeptadminUpdateData) :
    Except FormError (User × Store) :=
  match deptadminUpdateClean s d with
  | .error e => .error e
  | .ok _ => deptadminUpdateSave s d

/-- The `admission_year` field validator of `StudentSignupForm` and
`StudentUpdateForm`: `IntegerField(min_value=2000, max_value=
datetime.datetime.now().year)`.  The `max_value` expression runs when the
form class body is executed, i.e. at module import; `classDefYear` is the
calendar year current at that moment. -/
def admissionYearValid (classDefYear : Int) (y : Int) : Bool :=
  decide (2000 ≤ y) && decide (y ≤ classDefYear)

-- ================================================================
-- The operations of the module as one suite
-- ================================================================

/-- One submitted operation of the module. -/
inductive Op where
  | signinOp (email password : String)
  | acceptOp (uid : Nat)
  | deleteOp (uid : Nat)
  | activateOp (uid : Nat)
  | deactivateOp (uid : Nat)
  | studentSignupOp (d : StudentSignupData)
  | studentUpdateOp (d : StudentUpdateData)
  | teacherSignupOp (d : TeacherSignupData)
  | teacherUpdateOp (d : TeacherUpdateData)
  | deptadminSignupOp (d : DeptadminSignupData)
  | deptadminUpdateOp (d : DeptadminUpdateData)
deriving Repr, DecidableEq

/-- The store an operation leaves behind: the transaction's result on
success, the untouched input store on any error (rollback). -/
def commitOr (s : Store) : Except FormError (User × Store) → Store
  | .ok (_, s') => s'
  | .error _ => s

/-- As `commitOr` for the operations that return no user. -/
def commitOrS (s : Store) : Except FormError Store → Store
  | .ok s' => s'
  | .error _ => s

/-- The state transition each operation of the module performs. -/
def applyOp (hashPw : String → String) (s : Store) : Op → Store
  | .signinOp e p => commitOr s (signinClean hashPw s e p)
  | .acceptOp uid => commitOrS s (acceptUser s uid)
  | .deleteOp uid => deleteUser s uid
  | .activateOp uid => commitOrS s (activateUser s uid)
  | .deactivateOp uid => commitOrS s (deactivateUser s uid)
  | .studentSignupOp d => commitOr s (studentSignup hashPw s d)
  | .studentUpdateOp d => commitOr s (studentUpdate s d)
  | .teacherSignupOp d => commitOr s (.ok (teacherSignupSave hashPw s d))
  | .teacherUpdateOp d => commitOr s (teacherUpdate s d)
  | .deptadminSignupOp d => commitOr s (.ok (deptadminSignupSave hashPw s d))
  | .deptadminUpdateOp d => commitOr s (deptadminUpdate s d)

-- ================================================================
-- Sample data for the concrete witnesses
-- ================================================================

/-- A stored, accepted student user. -/
def sampleUser : User :=
  { id := 1, email := "alice@uni.example", passwordHash := "h1",
    is_student := true, is_teacher := false, is_deptadmin := false,
    is_staff := false, is_accepted := true, is_active := true }

/-- A second stored user, not yet accepted. -/
def sampleUser2 : User :=
  { id := 2, email := "bob@uni.example", passwordHash := "h2",
    is_student := true, is_teacher := false, is_deptadmin := false,
    is_staff := false, is_accepted := false, is_active := true }

/-- The student profile of `sampleUser`. -/
def sampleStudent : Student :=
  { user_id := 1, registry_id := "R100", first_name := "Alice",
    last_name := "A", admission_year := 2020 }

/-- The student profile of `sampleUser2`. -/
def sampleStudent2 : Student :=
  { user_id := 2, registry_id := "R200", first_name := "Bob",
    last_name := "B", admission_year := 2021 }

/-- A small populated store: two student users with their membership rows. -/
def sampleStore : Store :=
  { users := [sampleUser, sampleUser2],
    students := [sampleStudent, sampleStudent2],
    teachers := [], deptadmins := [],
    deptStudents := [⟨7, 1⟩, ⟨7, 2⟩], deptTeachers := [] }

/-- `sampleStore` with the membership row of user 1 missing. -/
def sampleStoreNoDS : Store :=
  { sampleStore with deptStudents := [⟨7, 2⟩] }

/-- The identity hashing service used by the concrete witnesses. -/
def idHash : String → String := fun p => p

-- ================================================================
-- Theorems
-- ================================================================

/-- No stored user carries the email, so the email lookup is empty. -/
theorem usersByEmail_head_none (s : Store) (email : String)
    (h : ∀ u ∈ s.users, u.email ≠ email) :
    (usersByEmail s email).head? = none := by
  have hnil : usersByEmail s email = [] := by
    simp only [usersByEmail, List.filter_eq_nil_iff]
    intro u hu
    simpa using h u hu
  simp [hnil]

/-- C1: signin fails with `invalidCredentials` both when no user carries the
submitted email and when the password hash does not match (one shared error
value, hence one shared message); an unaccepted user is rejected with
`accountDisabled` only after the credential check succeeded (a wrong password
on an unaccepted account still yields `invalidCredentials`); on success the
authenticated user is returned and the store is returned unchanged. -/
theorem signin_contract (hashPw : String → String) (s : Store)
    (email pw : String) :
    ((∀ u ∈ s.users, u.email ≠ email) →
        signinClean hashPw s email pw = .error .invalidCredentials)
    ∧ (∀ u, (usersByEmail s email).head? = some u →
        (u.passwordHash ≠ hashPw pw →
          signinClean hashPw s email pw = .error .invalidCredentials)
        ∧ (u.passwordHash = hashPw pw → u.is_accepted = false →
          signinClean hashPw s email pw = .error .accountDisabled)
        ∧ (u.passwordHash = hashPw pw → u.is_accepted = true →
          signinClean hashPw s email pw = .ok (u, s))) := by
  constructor
  · intro h
    have hh := usersByEmail_head_none s email h
    simp [signinClean, authenticate, hh]
  · intro u hu
    refine ⟨?_, ?_, ?_⟩
    · intro hne
      simp [signinClean, authenticate, hu, hne]
    · intro heq hacc
      simp [signinClean, authenticate, hu, heq, confirm_login_allowed, hacc]
    · intro heq hacc
      simp [signinClean, authenticate, hu, heq, confirm_login_allowed, hacc]

/-- Concrete run of `signin_contract`: unknown email, wrong password,
unaccepted account, and a full success on the sample store. -/
theorem signin_contract_witness :
    signinClean idHash sampleStore "carol@uni.example" "x" = .error .invalidCredentials
    ∧ signinClean idHash sampleStore "alice@uni.example" "wrong" = .error .invalidCredentials
    ∧ signinClean idHash sampleStore "bob@uni.example" "h2" = .error .accountDisabled
    ∧ signinClean idHash sampleStore "alice@uni.example" "h1" = .ok (sampleUser, sampleStore) := by
  refine ⟨?_, ?_, ?_, ?_⟩
  · exact (signin_contract idHash sampleStore "carol@uni.example" "x").1 (by decide)
  · exact ((signin_contract idHash sampleStore "alice@uni.example" "wrong").2 sampleUser (by decide)).1 (by decide)
  · exact (((signin_contract idHash sampleStore "bob@uni.example" "h2").2 sampleUser2 (by decide)).2.1 (by decide) (by decide))
  · exact (((signin_contract idHash sampleStore "alice@uni.example" "h1").2 sampleUser (by decide)).2.2 (by decide) (by decide))

/-- C2: a valid student signup (no stored student carries the submitted
registry id) succeeds, appends exactly one `User` row (student flag set, not
accepted, submitted email), exactly one `Student` row owned by the created
user and carrying the submitted registry id, and exactly one
`DepartmentStudents` row for the submitted department, touches nothing else,
and returns the created user; the save runs as one atomic transaction (an
`Except` result commits either all three writes or none). -/
theorem studentSignup_creates (hashPw : String → String) (s : Store)
    (d : StudentSignupData)
    (h : ∀ st ∈ s.students, st.registry_id ≠ d.registry_id) :
    (studentSignup hashPw s d).isOk = true
    ∧ ∀ u s', studentSignup hashPw s d = .ok (u, s') →
        u.email = d.email ∧ u.is_student = true ∧ u.is_accepted = false
        ∧ s'.users = s.users ++ [u]
        ∧ s'.students = s.students ++ [⟨u.id, d.registry_id, d.first_name, d.last_name, d.admission_year⟩]
        ∧ s'.deptStudents = s.deptStudents ++ [⟨d.department, u.id⟩]
        ∧ s'.teachers = s.teachers ∧ s'.deptadmins = s.deptadmins
        ∧ s'.deptTeachers = s.deptTeachers := by
  have hnil : studentsByRegistryId s d.registry_id = [] := by
    simp only [studentsByRegistryId, List.filter_eq_nil_iff]
    intro st hst
    simpa using h st hst
  have hrun : studentSignup hashPw s d = .ok (studentSignupSave hashPw s d) := by
    simp [studentSignup, studentSignupClean, hnil]
  constructor
  · simp [hrun, Except.isOk, Except.toBool]
  · intro u s' heq
    rw [hrun] at heq
    have hp : studentSignupSave hashPw s d = (u, s') := by
      injection heq
    have hu : u = (studentSignupSave hashPw s d).1 := by rw [hp]
    have hs : s' = (studentSignupSave hashPw s d).2 := by rw [hp]
    subst hu
    subst hs
    simp [studentSignupSave, newUser]

/-- Concrete run of `studentSignup_creates`: a fresh registry id on the
sample store; the created rows are exactly the submitted values. -/
theorem studentSignup_creates_witness :
    (studentSignup idHash sampleStore ⟨7, "carol@uni.example", "Carol", "C", "R300", 2022, "pw"⟩).isOk = true := by
  exact (studentSignup_creates idHash sampleStore ⟨7, "carol@uni.example", "Carol", "C", "R300", 2022, "pw"⟩ (by decide)).1

/-- C3: a student signup whose registry id is already taken fails with
`duplicateRegistryId`, and the operation leaves the store unchanged (no row
of any kind is created). -/
theorem studentSignup_duplicate (hashPw : String → String) (s : Store)
    (d : StudentSignupData) (st0 : Student) (hst : st0 ∈ s.students)
    (hr : st0.registry_id = d.registry_id) :
    studentSignup hashPw s d = .error .duplicateRegistryId
    ∧ applyOp hashPw s (Op.studentSignupOp d) = s := by
  have hmem : st0 ∈ studentsByRegistryId s d.registry_id :=
    List.mem_filter.mpr ⟨hst, by simp [hr]⟩
  have hne : studentsByRegistryId s d.registry_id ≠ [] :=
    List.ne_nil_of_mem hmem
  have hclean : studentSignupClean s d = .error .duplicateRegistryId := by
    simp [studentSignupClean, List.isEmpty_iff, hne]
  constructor
  · simp [studentSignup, hclean]
  · simp [applyOp, studentSignup, hclean, commitOr]

/-- Concrete run of `studentSignup_duplicate`: registry id `R100` is already
taken in the sample store. -/
theorem studentSignup_duplicate_witness :
    studentSignup idHash sampleStore ⟨7, "carol@uni.example", "Carol", "C", "R100", 2022, "pw"⟩ = .error .duplicateRegistryId
    ∧ applyOp idHash sampleStore (Op.studentSignupOp ⟨7, "carol@uni.example", "Carol", "C", "R100", 2022, "pw"⟩) = sampleStore := by
  exact studentSignup_duplicate idHash sampleStore ⟨7, "carol@uni.example", "Carol", "C", "R100", 2022, "pw"⟩ sampleStudent (by decide) (by decide)

/-- The head of a filtered list is a member satisfying the predicate. -/
theorem head_filter_spec {α : Type} {p : α → Bool} {l : List α} {x : α}
    (h : (l.filter p).head? = some x) : x ∈ l ∧ p x = true := by
  have hm : x ∈ l.filter p := by
    cases hl : l.filter p with
    | nil => rw [hl] at h; simp at h
    | cons a t =>
      rw [hl] at h
      simp only [List.head?_cons, Option.some.injEq] at h
      rw [h]
      exact List.mem_cons_self x t
  exact ⟨(List.mem_filter.mp hm).1, (List.mem_filter.mp hm).2⟩

/-- The head of the email lookup is a stored user with that email. -/
theorem usersByEmail_head {s : Store} {email : String} {w : User}
    (h : (usersByEmail s email).head? = some w) :
    w ∈ s.users ∧ w.email = email := by
  simp only [usersByEmail] at h
  have := head_filter_spec h
  exact ⟨this.1, by simpa using this.2⟩

/-- The head of the id lookup is a stored user with that id. -/
theorem usersById_head {s : Store} {uid : Nat} {w : User}
    (h : (usersById s uid).head? = some w) :
    w ∈ s.users ∧ w.id = uid := by
  simp only [usersById] at h
  have := head_filter_spec h
  exact ⟨this.1, by simpa using this.2⟩

/-- The head of the registry-id lookup is a stored student with that id. -/
theorem studentsByRegistryId_head {s : Store} {rid : String} {w : Student}
    (h : (studentsByRegistryId s rid).head? = some w) :
    w ∈ s.students ∧ w.registry_id = rid := by
  simp only [studentsByRegistryId] at h
  have := head_filter_spec h
  exact ⟨this.1, by simpa using this.2⟩

/-- Store invariant: user emails are globally unique. -/
def emailsUnique (s : Store) : Prop :=
  ∀ u ∈ s.users, ∀ v ∈ s.users, u.email = v.email → u = v

/-- Store invariant: student registry ids are globally unique. -/
def registryUnique (s : Store) : Prop :=
  ∀ a ∈ s.students, ∀ b ∈ s.students, a.registry_id = b.registry_id → a = b

/-- Store invariant: user primary keys are unique. -/
def idsUnique (s : Store) : Prop :=
  ∀ u ∈ s.users, ∀ v ∈ s.users, u.id = v.id → u = v

/-- C4: on a store with unique emails and registry ids, a student update
fails with `emailTaken` exactly when the submitted email belongs to a user
other than `user_id`, fails with `duplicateRegistryId` when the email check
passes but the submitted registry id belongs to a student owned by another
user, and passes validation when both submitted values are free or are the
record's own current values (self-exclusion). -/
theorem studentUpdate_uniqueness (s : Store) (d : StudentUpdateData)
    (hemail : emailsUnique s) (hreg : registryUnique s) :
    ((∃ v ∈ s.users, v.email = d.email ∧ v.id ≠ d.user_id) →
        studentUpdateClean s d = .error .emailTaken)
    ∧ ((∀ v ∈ s.users, v.email = d.email → v.id = d.user_id) →
       (∃ b ∈ s.students, b.registry_id = d.registry_id ∧ b.user_id ≠ d.user_id) →
        studentUpdateClean s d = .error .duplicateRegistryId)
    ∧ ((∀ v ∈ s.users, v.email = d.email → v.id = d.user_id) →
       (∀ b ∈ s.students, b.registry_id = d.registry_id → b.user_id = d.user_id) →
        studentUpdateClean s d = .ok ()) := by
  refine ⟨?_, ?_, ?_⟩
  · rintro ⟨v, hv, hvm, hvne⟩
    cases hw : (usersByEmail s d.email).head? with
    | none =>
      exfalso
      have hmem : v ∈ usersByEmail s d.email :=
        List.mem_filter.mpr ⟨hv, by simp [hvm]⟩
      have : usersByEmail s d.email = [] := List.head?_eq_none_iff.mp hw
      rw [this] at hmem
      simp at hmem
    | some w =>
      obtain ⟨hwu, hwm⟩ := usersByEmail_head hw
      have hwv : w = v := hemail w hwu v hv (hwm.trans hvm.symm)
      have hwid : w.id ≠ d.user_id := by rw [hwv]; exact hvne
      simp [studentUpdateClean, hw, hwid]
  · intro hok
    rintro ⟨b, hb, hbm, hbne⟩
    have hreg_head : ∀ st, (studentsByRegistryId s d.registry_id).head? = some st → st.user_id ≠ d.user_id := by
      intro st hst
      obtain ⟨hstu, hstm⟩ := studentsByRegistryId_head hst
      have : st = b := hreg st hstu b hb (hstm.trans hbm.symm)
      rw [this]; exact hbne
    have hbmem : b ∈ studentsByRegistryId s d.registry_id :=
      List.mem_filter.mpr ⟨hb, by simp [hbm]⟩
    cases hst : (studentsByRegistryId s d.registry_id).head? with
    | none =>
      exfalso
      have : studentsByRegistryId s d.registry_id = [] := List.head?_eq_none_iff.mp hst
      rw [this] at hbmem
      simp at hbmem
    | some st =>
      have hstne := hreg_head st hst
      cases hw : (usersByEmail s d.email).head? with
      | none => simp [studentUpdateClean, hw, hst, hstne]
      | some w =>
        obtain ⟨hwu, hwm⟩ := usersByEmail_head hw
        have hwid : w.id = d.user_id := hok w hwu hwm
        simp [studentUpdateClean, hw, hst, hwid, hstne]
  · intro hok hrok
    have hreg_arm : ∀ st, (studentsByRegistryId s d.registry_id).head? = some st → st.user_id = d.user_id := by
      intro st hst
      obtain ⟨hstu, hstm⟩ := studentsByRegistryId_head hst
      exact hrok st hstu hstm
    cases hw : (usersByEmail s d.email).head? with
    | none =>
      cases hst : (studentsByRegistryId s d.registry_id).head? with
      | none => simp [studentUpdateClean, hw, hst]
      | some st => simp [studentUpdateClean, hw, hst, hreg_arm st hst]
    | some w =>
      obtain ⟨hwu, hwm⟩ := usersByEmail_head hw
      have hwid : w.id = d.user_id := hok w hwu hwm
      cases hst : (studentsByRegistryId s d.registry_id).head? with
      | none => simp [studentUpdateClean, hw, hst, hwid]
      | some st => simp [studentUpdateClean, hw, hst, hwid, hreg_arm st hst]

/-- Concrete runs of `studentUpdate_uniqueness` on the sample store:
another user's email is rejected, another student's registry id is rejected,
and the record's own email and registry id pass validation. -/
theorem studentUpdate_uniqueness_witness :
    studentUpdateClean sampleStore ⟨2, 7, "Bob", "B", "R200", 2021, "alice@uni.example"⟩ = .error .emailTaken
    ∧ studentUpdateClean sampleStore ⟨2, 7, "Bob", "B", "R100", 2021, "bob@uni.example"⟩ = .error .duplicateRegistryId
    ∧ studentUpdateClean sampleStore ⟨1, 7, "Alice", "A", "R100", 2020, "alice@uni.example"⟩ = .ok () := by
  refine ⟨?_, ?_, ?_⟩
  · exact (studentUpdate_uniqueness sampleStore ⟨2, 7, "Bob", "B", "R200", 2021, "alice@uni.example"⟩
      (by unfold emailsUnique; decide) (by unfold registryUnique; decide)).1
      ⟨sampleUser, by decide, by decide, by decide⟩
  · exact (studentUpdate_uniqueness sampleStore ⟨2, 7, "Bob", "B", "R100", 2021, "bob@uni.example"⟩
      (by unfold emailsUnique; decide) (by unfold registryUnique; decide)).2.1
      (by decide) ⟨sampleStudent, by decide, by decide, by decide⟩
  · exact (studentUpdate_uniqueness sampleStore ⟨1, 7, "Alice", "A", "R100", 2020, "alice@uni.example"⟩
      (by unfold emailsUnique; decide) (by unfold registryUnique; decide)).2.2
      (by decide) (by decide)

/-- C5 counterexample: the `max_value=datetime.datetime.now().year`
expression of the `admission_year` field runs once, when the form class body
is executed at module import, not at validation time.  In a process imported
in 2025 and still serving in 2026, the submitted value 2026 — the calendar
year current at the moment of validation, inside the claimed bound
[2000, 2026] — is rejected by the field validator. -/
theorem admissionYear_validationTime_cex :
    admissionYearValid 2025 2026 = false
    ∧ ((2000 : Int) ≤ 2026 ∧ (2026 : Int) ≤ 2026) := by decide

/-- C5 amended: the `admission_year` validator of `StudentSignupForm` and
`StudentUpdateForm` enforces the bound [2000, Y] where Y is the calendar
year current when the form module was imported (equal to the validation-time
year only while the process does not outlive the year it was loaded in):
1999 is always rejected, and Y itself is accepted whenever Y ≥ 2000. -/
theorem admissionYear_bounds (classDefYear : Int) (h : 2000 ≤ classDefYear) :
    (∀ y : Int, admissionYearValid classDefYear y = true ↔ (2000 ≤ y ∧ y ≤ classDefYear))
    ∧ admissionYearValid classDefYear 1999 = false
    ∧ admissionYearValid classDefYear classDefYear = true := by
  refine ⟨?_, ?_, ?_⟩
  · intro y
    simp [admissionYearValid]
  · simp [admissionYearValid]
  · simp [admissionYearValid]
    omega

/-- Concrete run of `admissionYear_bounds` for a module imported in 2025:
1999 is rejected, 2025 is accepted. -/
theorem admissionYear_bounds_witness :
    admissionYearValid 2025 1999 = false ∧ admissionYearValid 2025 2025 = true :=
  ⟨(admissionYear_bounds 2025 (by decide)).2.1, (admissionYear_bounds 2025 (by decide)).2.2⟩

/-- C7: on a user id that resolves to no stored user, `accept`, `activate`
and `deactivate` fail with `notFound` (the `get` raises `DoesNotExist`),
while `delete` deletes an empty queryset: it raises no error and leaves the
store unchanged. -/
theorem userAction_missing (s : Store) (uid : Nat)
    (h : ∀ u ∈ s.users, u.id ≠ uid) :
    acceptUser s uid = .error .notFound
    ∧ activateUser s uid = .error .notFound
    ∧ deactivateUser s uid = .error .notFound
    ∧ deleteUser s uid = s := by
  have hnil : usersById s uid = [] := by
    simp only [usersById, List.filter_eq_nil_iff]
    intro u hu
    simpa using h u hu
  have hany : s.users.any (fun u => u.id = uid) = false := by
    simp only [List.any_eq_false]
    intro u hu
    simpa using h u hu
  refine ⟨?_, ?_, ?_, ?_⟩
  · simp [acceptUser, hnil]
  · simp [activateUser, hnil]
  · simp [deactivateUser, hnil]
  · simp [deleteUser, hany]

/-- Concrete run of `userAction_missing`: user id 99 is absent from the
sample store. -/
theorem userAction_missing_witness :
    acceptUser sampleStore 99 = .error .notFound
    ∧ activateUser sampleStore 99 = .error .notFound
    ∧ deactivateUser sampleStore 99 = .error .notFound
    ∧ deleteUser sampleStore 99 = sampleStore :=
  userAction_missing sampleStore 99 (by decide)

/-- C8: a deptadmin signup creates its user with both `is_deptadmin` and
`is_staff` set, appends exactly one `Deptadmin` row holding the submitted
department reference directly, and writes no membership row: the
`DepartmentStudents` and `DepartmentTeachers` tables (and the other profile
tables) are untouched. -/
theorem deptadminSignup_shape (hashPw : String → String) (s : Store)
    (d : DeptadminSignupData) :
    (deptadminSignupSave hashPw s d).1.is_deptadmin = true
    ∧ (deptadminSignupSave hashPw s d).1.is_staff = true
    ∧ (deptadminSignupSave hashPw s d).2.users = s.users ++ [(deptadminSignupSave hashPw s d).1]
    ∧ (deptadminSignupSave hashPw s d).2.deptadmins = s.deptadmins ++ [⟨(deptadminSignupSave hashPw s d).1.id, d.department⟩]
    ∧ (deptadminSignupSave hashPw s d).2.deptStudents = s.deptStudents
    ∧ (deptadminSignupSave hashPw s d).2.deptTeachers = s.deptTeachers
    ∧ (deptadminSignupSave hashPw s d).2.students = s.students
    ∧ (deptadminSignupSave hashPw s d).2.teachers = s.teachers := by
  simp [deptadminSignupSave, newUser]

/-- Membership in an updated row list comes from a stored row. -/
theorem mem_updateWhere {α : Type} {hit : α → Bool} {new y : α} {l : List α}
    (hy : y ∈ updateWhere hit new l) :
    ∃ x ∈ l, y = if hit x then new else x := by
  simp only [updateWhere, List.mem_map] at hy
  obtain ⟨x, hx, hxy⟩ := hy
  exact ⟨x, hx, hxy.symm⟩

/-- A row the update does not select stays in the list. -/
theorem updateWhere_mem_of_mem {α : Type} {hit : α → Bool} {new x : α}
    {l : List α} (hx : x ∈ l) (h : hit x = false) :
    x ∈ updateWhere hit new l := by
  simp only [updateWhere, List.mem_map]
  exact ⟨x, hx, by simp [h]⟩

/-- The written-back row is in the list when some row was selected. -/
theorem updateWhere_mem_new {α : Type} {hit : α → Bool} {new x : α}
    {l : List α} (hx : x ∈ l) (h : hit x = true) :
    new ∈ updateWhere hit new l := by
  simp only [updateWhere, List.mem_map]
  exact ⟨x, hx, by simp [h]⟩

/-- Updating rows in place never changes the number of rows. -/
theorem updateWhere_length {α : Type} (hit : α → Bool) (new : α) (l : List α) :
    (updateWhere hit new l).length = l.length := by
  simp [updateWhere]

/-- The head of the membership lookup is a stored row of that user. -/
theorem deptStudentsByUser_head {s : Store} {uid : Nat} {w : DeptStudentsRow}
    (h : (deptStudentsByUser s uid).head? = some w) :
    w ∈ s.deptStudents ∧ w.user_id = uid := by
  simp only [deptStudentsByUser] at h
  have := head_filter_spec h
  exact ⟨this.1, by simpa using this.2⟩

/-- C6: the student-update save step updates the existing
`DepartmentStudents` row in place — the row count is unchanged, the rows of
other users survive, and the updated row now references the submitted
department; when the referenced user has no membership row the save fails
with `notFound` and, the save being one atomic transaction, the already
written `User.email` and `Student` changes are rolled back: the committed
store is the unchanged input store. -/
theorem studentUpdateSave_membership (s : Store) (d : StudentUpdateData) :
    ((∀ r ∈ s.deptStudents, r.user_id ≠ d.user_id) →
        studentUpdateSave s d = .error .notFound
        ∧ commitOr s (studentUpdateSave s d) = s)
    ∧ (∀ u' s', studentUpdateSave s d = .ok (u', s') →
        s'.deptStudents.length = s.deptStudents.length
        ∧ (∃ r ∈ s'.deptStudents, r.user_id = d.user_id ∧ r.dept_id = d.department)
        ∧ (∀ r ∈ s'.deptStudents, r.user_id = d.user_id → r.dept_id = d.department)
        ∧ (∀ r ∈ s.deptStudents, r.user_id ≠ d.user_id → r ∈ s'.deptStudents)) := by
  constructor
  · intro h
    have hsave : studentUpdateSave s d = .error .notFound := by
      unfold studentUpdateSave
      split
      · rfl
      · simp only []
        split
        · rfl
        · split
          · rfl
          · rename_i ds0 hds0
            exfalso
            obtain ⟨hmem, hid⟩ := deptStudentsByUser_head hds0
            simp only at hmem
            exact h ds0 hmem hid
    exact ⟨hsave, by rw [hsave]; rfl⟩
  · intro u' s' heq
    unfold studentUpdateSave at heq
    split at heq
    · exact absurd heq (by simp)
    · rename_i u0 hu0
      simp only [] at heq
      split at heq
      · exact absurd heq (by simp)
      · rename_i st0 hst0
        split at heq
        · exact absurd heq (by simp)
        · rename_i ds0 hds0
          obtain ⟨hmem, hid⟩ := deptStudentsByUser_head hds0
          simp only at hmem
          simp only [Except.ok.injEq, Prod.mk.injEq] at heq
          obtain ⟨-, hs'⟩ := heq
          subst hs'
          refine ⟨?_, ?_, ?_, ?_⟩
          · simp [updateWhere_length]
          · refine ⟨{ ds0 with dept_id := d.department }, ?_, by simpa using hid, rfl⟩
            simpa using updateWhere_mem_new hmem (by simp [hid])
          · intro r hr hru
            obtain ⟨x, hx, hxr⟩ := mem_updateWhere (by simpa using hr)
            by_cases hhit : x.user_id = d.user_id
            · rw [hxr]; simp [hhit]
            · rw [hxr] at hru ⊢
              simp [hhit] at hru ⊢
          · intro r hr hru
            simpa using updateWhere_mem_of_mem hr (by simp [hru])

/-- Concrete runs of `studentUpdateSave_membership`: on the store missing
user 1's membership row the save fails with `notFound` and commits nothing;
on the full sample store the department move from 7 to 8 succeeds with the
membership row count unchanged. -/
theorem studentUpdateSave_membership_witness :
    (studentUpdateSave sampleStoreNoDS ⟨1, 8, "Alice", "A", "R100", 2020, "alice@uni.example"⟩ = .error .notFound
      ∧ commitOr sampleStoreNoDS (studentUpdateSave sampleStoreNoDS ⟨1, 8, "Alice", "A", "R100", 2020, "alice@uni.example"⟩) = sampleStoreNoDS)
    ∧ ({ sampleStore with deptStudents := [⟨8, 1⟩, ⟨7, 2⟩] } : Store).deptStudents.length = sampleStore.deptStudents.length := by
  refine ⟨?_, ?_⟩
  · exact (studentUpdateSave_membership sampleStoreNoDS ⟨1, 8, "Alice", "A", "R100", 2020, "alice@uni.example"⟩).1 (by decide)
  · exact ((studentUpdateSave_membership sampleStore ⟨1, 8, "Alice", "A", "R100", 2020, "alice@uni.example"⟩).2
      sampleUser { sampleStore with deptStudents := [⟨8, 1⟩, ⟨7, 2⟩] } (by rfl)).1

/-- A stored, accepted teacher user. -/
def teacherUser : User :=
  { id := 3, email := "tom@uni.example", passwordHash := "h3",
    is_student := false, is_teacher := true, is_deptadmin := false,
    is_staff := false, is_accepted := true, is_active := true }

/-- A stored, accepted department admin user. -/
def adminUser : User :=
  { id := 4, email := "dee@uni.example", passwordHash := "h4",
    is_student := false, is_teacher := false, is_deptadmin := true,
    is_staff := true, is_accepted := true, is_active := true }

/-- A store holding one user of each role with their profile rows. -/
def staffStore : Store :=
  { users := [sampleUser, teacherUser, adminUser],
    students := [sampleStudent],
    teachers := [⟨3, "Tom", "T", "professor"⟩],
    deptadmins := [⟨4, 9⟩],
    deptStudents := [⟨7, 1⟩], deptTeachers := [⟨7, 3⟩] }

/-- The four role flags of a user. -/
def roleFlags (u : User) : Bool × Bool × Bool × Bool :=
  (u.is_student, u.is_teacher, u.is_deptadmin, u.is_staff)

/-- Writing an email-only change back to the user table leaves every stored
user's role flags unchanged (user primary keys are unique). -/
theorem updateWhere_users_roleFlags (s : Store) (hid : idsUnique s)
    (uid : Nat) {u0 : User} (h0 : (usersById s uid).head? = some u0)
    (email : String) :
    (updateWhere (fun v => v.id = uid) { u0 with email := email } s.users).map roleFlags
      = s.users.map roleFlags := by
  obtain ⟨hmem, hu0id⟩ := usersById_head h0
  simp only [updateWhere, List.map_map]
  apply List.map_congr_left
  intro x hx
  by_cases hxe : x.id = uid
  · have hxu : x = u0 := hid x hx u0 hmem (by rw [hxe, hu0id])
    subst hxu
    simp [roleFlags, Function.comp, hxe]
  · simp [roleFlags, Function.comp, hxe]

/-- C9: a successful student, teacher, or deptadmin update save leaves the
role flags (`is_student`, `is_teacher`, `is_deptadmin`, `is_staff`) of every
stored user unchanged — none of these operations writes a role flag. -/
theorem updates_preserve_role_flags (s : Store) (hid : idsUnique s) :
    (∀ d u' s', studentUpdateSave s d = .ok (u', s') →
        s'.users.map roleFlags = s.users.map roleFlags)
    ∧ (∀ d u' s', teacherUpdateSave s d = .ok (u', s') →
        s'.users.map roleFlags = s.users.map roleFlags)
    ∧ (∀ d u' s', deptadminUpdateSave s d = .ok (u', s') →
        s'.users.map roleFlags = s.users.map roleFlags) := by
  refine ⟨?_, ?_, ?_⟩
  · intro d u' s' heq
    unfold studentUpdateSave at heq
    split at heq
    · exact absurd heq (by simp)
    · rename_i u0 hu0
      simp only [] at heq
      split at heq
      · exact absurd heq (by simp)
      · rename_i st0 hst0
        split at heq
        · exact absurd heq (by simp)
        · rename_i ds0 hds0
          simp only [Except.ok.injEq, Prod.mk.injEq] at heq
          obtain ⟨-, hs'⟩ := heq
          subst hs'
          simpa using updateWhere_users_roleFlags s hid d.user_id hu0 d.email
  · intro d u' s' heq
    unfold teacherUpdateSave at heq
    split at heq
    · exact absurd heq (by simp)
    · rename_i u0 hu0
      simp only [] at heq
      split at heq
      · exact absurd heq (by simp)
      · rename_i t0 ht0
        split at heq
        · exact absurd heq (by simp)
        · rename_i dt0 hdt0
          simp only [Except.ok.injEq, Prod.mk.injEq] at heq
          obtain ⟨-, hs'⟩ := heq
          subst hs'
          simpa using updateWhere_users_roleFlags s hid d.user_id hu0 d.email
  · intro d u' s' heq
    unfold deptadminUpdateSave at heq
    split at heq
    · exact absurd heq (by simp)
    · rename_i u0 hu0
      simp only [] at heq
      split at heq
      · exact absurd heq (by simp)
      · rename_i da0 hda0
        simp only [Except.ok.injEq, Prod.mk.injEq] at heq
        obtain ⟨-, hs'⟩ := heq
        subst hs'
        simpa using updateWhere_users_roleFlags s hid d.user_id hu0 d.email

/-- Concrete runs of `updates_preserve_role_flags`: email-changing updates
of the student, the teacher and the deptadmin of `staffStore` all leave the
stored role flags as they were. -/
theorem updates_preserve_role_flags_witness :
    ({ staffStore with users := [{ sampleUser with email := "alice2@uni.example" }, teacherUser, adminUser] } : Store).users.map roleFlags = staffStore.users.map roleFlags
    ∧ ({ staffStore with users := [sampleUser, { teacherUser with email := "tom2@uni.example" }, adminUser] } : Store).users.map roleFlags = staffStore.users.map roleFlags
    ∧ ({ staffStore with users := [sampleUser, teacherUser, { adminUser with email := "dee2@uni.example" }] } : Store).users.map roleFlags = staffStore.users.map roleFlags := by
  refine ⟨?_, ?_, ?_⟩
  · exact (updates_preserve_role_flags staffStore (by unfold idsUnique; decide)).1
      ⟨1, 7, "Alice", "A", "R100", 2020, "alice2@uni.example"⟩
      { sampleUser with email := "alice2@uni.example" }
      { staffStore with users := [{ sampleUser with email := "alice2@uni.example" }, teacherUser, adminUser] }
      (by rfl)
  · exact (updates_preserve_role_flags staffStore (by unfold idsUnique; decide)).2.1
      ⟨3, 7, "Tom", "T", "professor", "tom2@uni.example"⟩
      { teacherUser with email := "tom2@uni.example" }
      { staffStore with users := [sampleUser, { teacherUser with email := "tom2@uni.example" }, adminUser] }
      (by rfl)
  · exact (updates_preserve_role_flags staffStore (by unfold idsUnique; decide)).2.2
      ⟨4, 9, "dee2@uni.example"⟩
      { adminUser with email := "dee2@uni.example" }
      { staffStore with users := [sampleUser, teacherUser, { adminUser with email := "dee2@uni.example" }] }
      (by rfl)

/-- The running maximum in `freshId` bounds the accumulator and every id. -/
theorem foldl_max_le (l : List User) (a : Nat) :
    a ≤ l.foldl (fun m u => max m u.id) a
    ∧ ∀ u ∈ l, u.id ≤ l.foldl (fun m u => max m u.id) a := by
  induction l generalizing a with
  | nil => simp
  | cons x t ih =>
    constructor
    · exact le_trans (le_max_left a x.id) (ih (max a x.id)).1
    · intro u hu
      rcases List.mem_cons.mp hu with h | h
      · subst h
        exact le_trans (le_max_right a u.id) (ih (max a u.id)).1
      · exact (ih (max a x.id)).2 u h

/-- A freshly allocated user id differs from every stored id. -/
theorem mem_id_ne_freshId (s : Store) : ∀ u ∈ s.users, u.id ≠ freshId s := by
  intro u hu
  have hle := (foldl_max_le s.users 0).2 u hu
  simp only [freshId]
  omega

/-- Accepted users of a committed user list were already accepted before. -/
def backProp (s : Store) (l : List User) : Prop :=
  ∀ u' ∈ l, u'.is_accepted = true → ∃ u ∈ s.users, u.id = u'.id ∧ u.is_accepted = true

/-- Users accepted before stay accepted in a committed user list. -/
def fwdProp (s : Store) (l : List User) : Prop :=
  ∀ u ∈ s.users, u.is_accepted = true → ∀ u' ∈ l, u'.id = u.id → u'.is_accepted = true

/-- An untouched user list satisfies `backProp`. -/
theorem backProp_refl (s : Store) : backProp s s.users :=
  fun u' hu' hacc => ⟨u', hu', rfl, hacc⟩

/-- An untouched user list satisfies `fwdProp` when ids are unique. -/
theorem fwdProp_refl (s : Store) (hid : idsUnique s) : fwdProp s s.users :=
  fun u hu hacc u' hu' hide => by rw [hid u' hu' u hu hide]; exact hacc

/-- A write-back that keeps `is_accepted` and the id satisfies `backProp`. -/
theorem updateWhere_back (s : Store) (uid : Nat) {u0 u0' : User}
    (h0 : (usersById s uid).head? = some u0)
    (hacc : u0'.is_accepted = u0.is_accepted) (hid0 : u0'.id = u0.id) :
    backProp s (updateWhere (fun v => v.id = uid) u0' s.users) := by
  intro u' hu' hacc'
  obtain ⟨hm0, hi0⟩ := usersById_head h0
  obtain ⟨x, hx, hxe⟩ := mem_updateWhere hu'
  by_cases hhit : x.id = uid
  · simp only [hhit, decide_True, if_true] at hxe
    subst hxe
    exact ⟨u0, hm0, hid0.symm, by rw [← hacc]; exact hacc'⟩
  · simp only [hhit, decide_False, if_false] at hxe
    subst hxe
    exact ⟨u', hx, rfl, hacc'⟩

/-- A write-back that cannot clear `is_accepted` satisfies `fwdProp`. -/
theorem updateWhere_fwd (s : Store) (hid : idsUnique s) (uid : Nat)
    {u0 u0' : User} (h0 : (usersById s uid).head? = some u0)
    (hacc : u0.is_accepted = true → u0'.is_accepted = true)
    (hid0 : u0'.id = u0.id) :
    fwdProp s (updateWhere (fun v => v.id = uid) u0' s.users) := by
  intro u hu huacc u' hu' hide
  obtain ⟨hm0, hi0⟩ := usersById_head h0
  obtain ⟨x, hx, hxe⟩ := mem_updateWhere hu'
  by_cases hhit : x.id = uid
  · simp only [hhit, decide_True, if_true] at hxe
    subst hxe
    have hu0u : u0 = u := hid u0 hm0 u hu (by rw [← hide, hid0])
    exact hacc (by rw [hu0u]; exact huacc)
  · simp only [hhit, decide_False, if_false] at hxe
    subst hxe
    rw [hid u' hx u hu hide]
    exact huacc

/-- Appending a not-yet-accepted user satisfies `backProp`. -/
theorem append_back (s : Store) {nu : User} (hnu : nu.is_accepted = false) :
    backProp s (s.users ++ [nu]) := by
  intro u' hu' hacc
  rcases List.mem_append.mp hu' with h | h
  · exact ⟨u', h, rfl, hacc⟩
  · simp only [List.mem_singleton] at h
    subst h
    rw [hnu] at hacc
    cases hacc

/-- Appending a user with a fresh id satisfies `fwdProp`. -/
theorem append_fwd (s : Store) (hid : idsUnique s) {nu : User}
    (hfresh : ∀ u ∈ s.users, u.id ≠ nu.id) :
    fwdProp s (s.users ++ [nu]) := by
  intro u hu hacc u' hu' hide
  rcases List.mem_append.mp hu' with h | h
  · rw [hid u' h u hu hide]
    exact hacc
  · simp only [List.mem_singleton] at h
    subst h
    exact absurd hide.symm (hfresh u hu)

/-- Removing users satisfies `backProp`. -/
theorem filter_back (s : Store) (p : User → Bool) :
    backProp s (s.users.filter p) :=
  fun u' hu' hacc => ⟨u', (List.mem_filter.mp hu').1, rfl, hacc⟩

/-- Removing users satisfies `fwdProp`. -/
theorem filter_fwd (s : Store) (hid : idsUnique s) (p : User → Bool) :
    fwdProp s (s.users.filter p) :=
  fun u hu hacc u' hu' hide => by
    rw [hid u' (List.mem_filter.mp hu').1 u hu hide]
    exact hacc

/-- Signin commits no store change. -/
theorem signin_readonly (hashPw : String → String) (s : Store)
    (e p : String) : applyOp hashPw s (Op.signinOp e p) = s := by
  simp only [applyOp]
  cases hA : authenticate hashPw s e p with
  | none => simp [signinClean, hA, commitOr]
  | some u =>
    cases hC : confirm_login_allowed u with
    | error er => simp [signinClean, hA, hC, commitOr]
    | ok un => simp [signinClean, hA, hC, commitOr]

/-- A student signup that did not fail ran the save. -/
theorem studentSignup_ok (hashPw : String → String) (s : Store)
    (d : StudentSignupData) (p : User × Store)
    (h : studentSignup hashPw s d = .ok p) :
    p = studentSignupSave hashPw s d := by
  unfold studentSignup at h
  split at h
  · exact absurd h (by simp)
  · simp only [Except.ok.injEq] at h
    exact h.symm

/-- A student update that did not fail ran the save. -/
theorem studentUpdate_ok (s : Store) (d : StudentUpdateData)
    (p : User × Store) (h : studentUpdate s d = .ok p) :
    studentUpdateSave s d = .ok p := by
  unfold studentUpdate at h
  split at h
  · exact absurd h (by simp)
  · exact h

/-- A teacher update that did not fail ran the save. -/
theorem teacherUpdate_ok (s : Store) (d : TeacherUpdateData)
    (p : User × Store) (h : teacherUpdate s d = .ok p) :
    teacherUpdateSave s d = .ok p := by
  unfold teacherUpdate at h
  split at h
  · exact absurd h (by simp)
  · exact h

/-- A deptadmin update that did not fail ran the save. -/
theorem deptadminUpdate_ok (s : Store) (d : DeptadminUpdateData)
    (p : User × Store) (h : deptadminUpdate s d = .ok p) :
    deptadminUpdateSave s d = .ok p := by
  unfold deptadminUpdate at h
  split at h
  · exact absurd h (by simp)
  · exact h

/-- The committed user list of a successful student update save is an
email-only write-back of the looked-up user. -/
theorem studentUpdateSave_users (s : Store) (d : StudentUpdateData)
    (u' : User) (s' : Store) (h : studentUpdateSave s d = .ok (u', s')) :
    ∃ u0, (usersById s d.user_id).head? = some u0
      ∧ s'.users = updateWhere (fun v => v.id = d.user_id) { u0 with email := d.email } s.users := by
  unfold studentUpdateSave at h
  split at h
  · exact absurd h (by simp)
  · rename_i u0 hu0
    simp only [] at h
    split at h
    · exact absurd h (by simp)
    · split at h
      · exact absurd h (by simp)
      · simp only [Except.ok.injEq, Prod.mk.injEq] at h
        obtain ⟨-, hs'⟩ := h
        subst hs'
        exact ⟨u0, hu0, by simp⟩

/-- The committed user list of a successful teacher update save is an
email-only write-back of the looked-up user. -/
theorem teacherUpdateSave_users (s : Store) (d : TeacherUpdateData)
    (u' : User) (s' : Store) (h : teacherUpdateSave s d = .ok (u', s')) :
    ∃ u0, (usersById s d.user_id).head? = some u0
      ∧ s'.users = updateWhere (fun v => v.id = d.user_id) { u0 with email := d.email } s.users := by
  unfold teacherUpdateSave at h
  split at h
  · exact absurd h (by simp)
  · rename_i u0 hu0
    simp only [] at h
    split at h
    · exact absurd h (by simp)
    · split at h
      · exact absurd h (by simp)
      · simp only [Except.ok.injEq, Prod.mk.injEq] at h
        obtain ⟨-, hs'⟩ := h
        subst hs'
        exact ⟨u0, hu0, by simp⟩

/-- The committed user list of a successful deptadmin update save is an
email-only write-back of the looked-up user. -/
theorem deptadminUpdateSave_users (s : Store) (d : DeptadminUpdateData)
    (u' : User) (s' : Store) (h : deptadminUpdateSave s d = .ok (u', s')) :
    ∃ u0, (usersById s d.user_id).head? = some u0
      ∧ s'.users = updateWhere (fun v => v.id = d.user_id) { u0 with email := d.email } s.users := by
  unfold deptadminUpdateSave at h
  split at h
  · exact absurd h (by simp)
  · rename_i u0 hu0
    simp only [] at h
    split at h
    · exact absurd h (by simp)
    · simp only [Except.ok.injEq, Prod.mk.injEq] at h
      obtain ⟨-, hs'⟩ := h
      subst hs'
      exact ⟨u0, hu0, by simp⟩

/-- C10: across every operation of the module, `is_accepted` is set only by
the Accept action and never cleared: for any operation other than Accept, a
user accepted in the committed store was already accepted before
(`backProp`); for every operation, a previously accepted user is still
accepted afterwards (`fwdProp`); and every signup creates its user with
`is_accepted = false`. -/
theorem is_accepted_set_only_by_accept (hashPw : String → String) (s : Store)
    (op : Op) (hid : idsUnique s) :
    ((∀ uid, op ≠ Op.acceptOp uid) → backProp s (applyOp hashPw s op).users)
    ∧ fwdProp s (applyOp hashPw s op).users
    ∧ (∀ dS, (studentSignupSave hashPw s dS).1.is_accepted = false)
    ∧ (∀ dT, (teacherSignupSave hashPw s dT).1.is_accepted = false)
    ∧ (∀ dD, (deptadminSignupSave hashPw s dD).1.is_accepted = false) := by
  refine ⟨?_, ?_, ?_, ?_, ?_⟩
  · intro hnot
    cases op with
    | signinOp e p =>
      rw [signin_readonly]
      exact backProp_refl s
    | acceptOp uid => exact absurd rfl (hnot uid)
    | deleteOp uid =>
      by_cases hany : s.users.any (fun u => u.id = uid) = true
      · simp only [applyOp, deleteUser, hany, if_true]
        exact filter_back s _
      · rw [Bool.not_eq_true] at hany
        simp only [applyOp, deleteUser, hany, Bool.false_eq_true, if_false]
        exact backProp_refl s
    | activateOp uid =>
      cases hres : (usersById s uid).head? with
      | none =>
        simp only [applyOp, activateUser, hres, commitOrS]
        exact backProp_refl s
      | some u0 =>
        simp only [applyOp, activateUser, hres, commitOrS]
        exact updateWhere_back s uid hres rfl rfl
    | deactivateOp uid =>
      cases hres : (usersById s uid).head? with
      | none =>
        simp only [applyOp, deactivateUser, hres, commitOrS]
        exact backProp_refl s
      | some u0 =>
        simp only [applyOp, deactivateUser, hres, commitOrS]
        exact updateWhere_back s uid hres rfl rfl
    | studentSignupOp d =>
      cases hres : studentSignup hashPw s d with
      | error e =>
        simp only [applyOp, hres, commitOr]
        exact backProp_refl s
      | ok p =>
        have hp := studentSignup_ok hashPw s d p hres
        have husers : (studentSignupSave hashPw s d).2.users = s.users ++ [(studentSignupSave hashPw s d).1] := by
          simp [studentSignupSave]
        simp only [applyOp, hres, commitOr, hp, husers]
        exact append_back s (by simp [studentSignupSave, newUser])
    | teacherSignupOp d =>
      have husers : (teacherSignupSave hashPw s d).2.users = s.users ++ [(teacherSignupSave hashPw s d).1] := by
        simp [teacherSignupSave]
      simp only [applyOp, commitOr, husers]
      exact append_back s (by simp [teacherSignupSave, newUser])
    | deptadminSignupOp d =>
      have husers : (deptadminSignupSave hashPw s d).2.users = s.users ++ [(deptadminSignupSave hashPw s d).1] := by
        simp [deptadminSignupSave]
      simp only [applyOp, commitOr, husers]
      exact append_back s (by simp [deptadminSignupSave, newUser])
    | studentUpdateOp d =>
      cases hres : studentUpdate s d with
      | error e =>
        simp only [applyOp, hres, commitOr]
        exact backProp_refl s
      | ok p =>
        obtain ⟨u2, s2⟩ := p
        obtain ⟨u0, h0, husers⟩ :=
          studentUpdateSave_users s d u2 s2 (studentUpdate_ok s d _ hres)
        simp only [applyOp, hres, commitOr, husers]
        exact updateWhere_back s d.user_id h0 rfl rfl
    | teacherUpdateOp d =>
      cases hres : teacherUpdate s d with
      | error e =>
        simp only [applyOp, hres, commitOr]
        exact backProp_refl s
      | ok p =>
        obtain ⟨u2, s2⟩ := p
        obtain ⟨u0, h0, husers⟩ :=
          teacherUpdateSave_users s d u2 s2 (teacherUpdate_ok s d _ hres)
        simp only [applyOp, hres, commitOr, husers]
        exact updateWhere_back s d.user_id h0 rfl rfl
    | deptadminUpdateOp d =>
      cases hres : deptadminUpdate s d with
      | error e =>
        simp only [applyOp, hres, commitOr]
        exact backProp_refl s
      | ok p =>
        obtain ⟨u2, s2⟩ := p
        obtain ⟨u0, h0, husers⟩ :=
          deptadminUpdateSave_users s d u2 s2 (deptadminUpdate_ok s d _ hres)
        simp only [applyOp, hres, commitOr, husers]
        exact updateWhere_back s d.user_id h0 rfl rfl
  · cases op with
    | signinOp e p =>
      rw [signin_readonly]
      exact fwdProp_refl s hid
    | acceptOp uid =>
      cases hres : (usersById s uid).head? with
      | none =>
        simp only [applyOp, acceptUser, hres, commitOrS]
        exact fwdProp_refl s hid
      | some u0 =>
        simp only [applyOp, acceptUser, hres, commitOrS]
        exact updateWhere_fwd s hid uid hres (fun _ => rfl) rfl
    | deleteOp uid =>
      by_cases hany : s.users.any (fun u => u.id = uid) = true
      · simp only [applyOp, deleteUser, hany, if_true]
        exact filter_fwd s hid _
      · rw [Bool.not_eq_true] at hany
        simp only [applyOp, deleteUser, hany, Bool.false_eq_true, if_false]
        exact fwdProp_refl s hid
    | activateOp uid =>
      cases hres : (usersById s uid).head? with
      | none =>
        simp only [applyOp, activateUser, hres, commitOrS]
        exact fwdProp_refl s hid
      | some u0 =>
        simp only [applyOp, activateUser, hres, commitOrS]
        exact updateWhere_fwd s hid uid hres (fun h => h) rfl
    | deactivateOp uid =>
      cases hres : (usersById s uid).head? with
      | none =>
        simp only [applyOp, deactivateUser, hres, commitOrS]
        exact fwdProp_refl s hid
      | some u0 =>
        simp only [applyOp, deactivateUser, hres, commitOrS]
        exact updateWhere_fwd s hid uid hres (fun h => h) rfl
    | studentSignupOp d =>
      cases hres : studentSignup hashPw s d with
      | error e =>
        simp only [applyOp, hres, commitOr]
        exact fwdProp_refl s hid
      | ok p =>
        have hp := studentSignup_ok hashPw s d p hres
        have husers : (studentSignupSave hashPw s d).2.users = s.users ++ [(studentSignupSave hashPw s d).1] := by
          simp [studentSignupSave]
        simp only [applyOp, hres, commitOr, hp, husers]
        refine append_fwd s hid ?_
        have hidnew : (studentSignupSave hashPw s d).1.id = freshId s := by
          simp [studentSignupSave, newUser]
        rw [hidnew]
        exact mem_id_ne_freshId s
    | teacherSignupOp d =>
      have husers : (teacherSignupSave hashPw s d).2.users = s.users ++ [(teacherSignupSave hashPw s d).1] := by
        simp [teacherSignupSave]
      simp only [applyOp, commitOr, husers]
      refine append_fwd s hid ?_
      have hidnew : (teacherSignupSave hashPw s d).1.id = freshId s := by
        simp [teacherSignupSave, newUser]
      rw [hidnew]
      exact mem_id_ne_freshId s
    | deptadminSignupOp d =>
      have husers : (deptadminSignupSave hashPw s d).2.users = s.users ++ [(deptadminSignupSave hashPw s d).1] := by
        simp [deptadminSignupSave]
      simp only [applyOp, commitOr, husers]
      refine append_fwd s hid ?_
      have hidnew : (deptadminSignupSave hashPw s d).1.id = freshId s := by
        simp [deptadminSignupSave, newUser]
      rw [hidnew]
      exact mem_id_ne_freshId s
    | studentUpdateOp d =>
      cases hres : studentUpdate s d with
      | error e =>
        simp only [applyOp, hres, commitOr]
        exact fwdProp_refl s hid
      | ok p =>
        obtain ⟨u2, s2⟩ := p
        obtain ⟨u0, h0, husers⟩ :=
          studentUpdateSave_users s d u2 s2 (studentUpdate_ok s d _ hres)
        simp only [applyOp, hres, commitOr, husers]
        exact updateWhere_fwd s hid d.user_id h0 (fun h => h) rfl
    | teacherUpdateOp d =>
      cases hres : teacherUpdate s d with
      | error e =>
        simp only [applyOp, hres, commitOr]
        exact fwdProp_refl s hid
      | ok p =>
        obtain ⟨u2, s2⟩ := p
        obtain ⟨u0, h0, husers⟩ :=
          teacherUpdateSave_users s d u2 s2 (teacherUpdate_ok s d _ hres)
        simp only [applyOp, hres, commitOr, husers]
        exact updateWhere_fwd s hid d.user_id h0 (fun h => h) rfl
    | deptadminUpdateOp d =>
      cases hres : deptadminUpdate s d with
      | error e =>
        simp only [applyOp, hres, commitOr]
        exact fwdProp_refl s hid
      | ok p =>
        obtain ⟨u2, s2⟩ := p
        obtain ⟨u0, h0, husers⟩ :=
          deptadminUpdateSave_users s d u2 s2 (deptadminUpdate_ok s d _ hres)
        simp only [applyOp, hres, commitOr, husers]
        exact updateWhere_fwd s hid d.user_id h0 (fun h => h) rfl
  · intro dS
    simp [studentSignupSave, newUser]
  · intro dT
    simp [teacherSignupSave, newUser]
  · intro dD
    simp [deptadminSignupSave, newUser]

/-- Concrete run of `is_accepted_set_only_by_accept`: deactivating user 1 of
the sample store leaves the user accepted. -/
theorem is_accepted_set_only_by_accept_witness :
    ({ sampleUser with is_active := false } : User).is_accepted = true :=
  (is_accepted_set_only_by_accept idHash sampleStore (Op.deactivateOp 1)
      (by unfold idsUnique; decide)).2.1
    sampleUser (by decide) (by decide)
    { sampleUser with is_active := false } (by decide) (by decide)

end UsersForms
